import Mathlib

/-!
Verification of the notion-downloader rendering pipeline.

Shallow embedding of the pure data transformations of
`notion_downloader.py` and `notion_helper.py`:
rich-text span rendering, block-to-markdown rendering, the one-level
child expansion of the page export loop, property-cell rendering and
table-cell escaping of the database table export, filename
sanitization, page-title extraction and configuration
environment-variable resolution.  JSON dictionaries are embedded as
structures whose fields model the `.get(key, default)` accesses the
code performs; absent optional payloads are `Option`/empty values.
-/

namespace NotionDL

/-- The four boolean inline style flags of a rich-text span
(`annotations.get(...)` in `_extract_text`; a missing key is falsy,
hence `false`). -/
structure Annots where
  bold : Bool
  italic : Bool
  strikethrough : Bool
  code : Bool
deriving DecidableEq

/-- One rich-text span: its `type` tag, the literal content
`text.content`, the style flags, and the optional link URL
`text.link.url` (`none` when `text.get("link")` is falsy). -/
structure RichTextSpan where
  type : String
  content : String
  annots : Annots
  link : Option String
deriving DecidableEq

/-- Python `"".join(parts)` on the accumulated list of parts. -/
def joinParts : List String → String
  | [] => ""
  | p :: ps => p ++ joinParts ps

/-- The body of the `for text_block in rich_text` loop of
`NotionDownloader._extract_text` (notion_downloader.py:169-189):
spans whose tag is not `"text"` contribute nothing; otherwise the
content is wrapped by bold, italic, strikethrough, code in that
order, and finally by the link. -/
def renderSpan (text_block : RichTextSpan) : Option String :=
  if text_block.type = "text" then
    let t := text_block.content
    let t := if text_block.annots.bold then "**" ++ t ++ "**" else t
    let t := if text_block.annots.italic then "*" ++ t ++ "*" else t
    let t := if text_block.annots.strikethrough then "~~" ++ t ++ "~~" else t
    let t := if text_block.annots.code then "`" ++ t ++ "`" else t
    let t :=
      match text_block.link with
      | some url => "[" ++ t ++ "](" ++ url ++ ")"
      | none => t
    some t
  else
    none

/-- The function `NotionDownloader._extract_text` (notion_downloader.py:158-191). -/
def extract_text (rich_text : List RichTextSpan) : String :=
  joinParts (rich_text.filterMap renderSpan)

/-- Spec-side wrapper: bold markers, from the spec sentence
"apply bold ... as successive wraps". -/
def specWrapBold (b : Bool) (s : String) : String :=
  if b then "**" ++ s ++ "**" else s

/-- Spec-side wrapper: italic markers. -/
def specWrapItalic (b : Bool) (s : String) : String :=
  if b then "*" ++ s ++ "*" else s

/-- Spec-side wrapper: strikethrough markers. -/
def specWrapStrike (b : Bool) (s : String) : String :=
  if b then "~~" ++ s ++ "~~" else s

/-- Spec-side wrapper: code markers. -/
def specWrapCode (b : Bool) (s : String) : String :=
  if b then "`" ++ s ++ "`" else s

/-- Spec-side wrapper: hyperlink label, applied last. -/
def specWrapLink : Option String → String → String
  | some url, s => "[" ++ s ++ "](" ++ url ++ ")"
  | none, s => s

/-- The type-specific payload of a block (`block[block_type]`).  Each
field models the corresponding `.get` access of `block_to_markdown`:
`rich_text`/`caption` default to `[]`, `checked` to `False`,
`language` to `""`; `icon_emoji` is `content.get("icon", {}).get("emoji")`
(`none` when absent, the code then defaults to the 💡 placeholder);
`external_url`/`file_url` are `content.get("external", {}).get("url")`
and `content.get("file", {}).get("url")`. -/
structure BlockContent where
  rich_text : List RichTextSpan
  checked : Bool
  language : String
  icon_emoji : Option String
  external_url : Option String
  file_url : Option String
  caption : List RichTextSpan

/-- One content block: `id`, the discriminating `type` tag, the
`has_children` flag and the type-specific payload. -/
structure Block where
  id : String
  type : String
  has_children : Bool
  content : BlockContent

/-- Python `a or b` on two optional strings (`None` and `""` are
falsy, the second operand is returned as-is otherwise). -/
def pyOr (a b : Option String) : Option String :=
  match a with
  | some s => if s = "" then b else some s
  | none => b

/-- Python f-string interpolation of a possibly-absent string
(`None` prints as `"None"`). -/
def pyStr : Option String → String
  | some s => s
  | none => "None"

/-- The function `NotionDownloader.block_to_markdown` (notion_downloader.py:85-156). -/
def block_to_markdown (block : Block) : String :=
  let block_type := block.type
  let content := block.content
  if block_type = "paragraph" then
    extract_text content.rich_text ++ "\n\n"
  else if block_type = "heading_1" then
    "# " ++ extract_text content.rich_text ++ "\n\n"
  else if block_type = "heading_2" then
    "## " ++ extract_text content.rich_text ++ "\n\n"
  else if block_type = "heading_3" then
    "### " ++ extract_text content.rich_text ++ "\n\n"
  else if block_type = "bulleted_list_item" then
    "- " ++ extract_text content.rich_text ++ "\n"
  else if block_type = "numbered_list_item" then
    "1. " ++ extract_text content.rich_text ++ "\n"
  else if block_type = "to_do" then
    (if content.checked then "[x]" else "[ ]") ++ " " ++
      extract_text content.rich_text ++ "\n"
  else if block_type = "code" then
    "```" ++ content.language ++ "\n" ++ extract_text content.rich_text ++ "\n```\n\n"
  else if block_type = "quote" then
    "> " ++ extract_text content.rich_text ++ "\n\n"
  else if block_type = "callout" then
    (content.icon_emoji.getD "💡") ++ " " ++ extract_text content.rich_text ++ "\n\n"
  else if block_type = "divider" then
    "---\n\n"
  else if block_type = "image" then
    let caption := extract_text content.caption
    let caption_text := if caption ≠ "" then " " ++ caption else ""
    "![" ++ caption ++ "](" ++ pyStr (pyOr content.external_url content.file_url) ++ ")" ++
      caption_text ++ "\n\n"
  else if block_type = "table_of_contents" then
    "[[目次]]\n\n"
  else
    "<!-- 未対応ブロック: " ++ block_type ++ " -->\n\n"

/-- The type tags handled by a dedicated branch of `block_to_markdown`. -/
def supported_types : List String :=
  ["paragraph", "heading_1", "heading_2", "heading_3",
   "bulleted_list_item", "numbered_list_item", "to_do", "code",
   "quote", "callout", "divider", "image", "table_of_contents"]

/-- The structural marker characteristic of each supported block
type's markdown fragment (heading hashes, list bullets, fences, the
checkbox closing bracket, the space after the callout icon, the
paragraph terminator, ...). -/
def structuralMarker : String → String
  | "paragraph" => "\n\n"
  | "heading_1" => "# "
  | "heading_2" => "## "
  | "heading_3" => "### "
  | "bulleted_list_item" => "- "
  | "numbered_list_item" => "1. "
  | "to_do" => "] "
  | "code" => "```"
  | "quote" => "> "
  | "callout" => " "
  | "divider" => "---"
  | "image" => "!["
  | "table_of_contents" => "[[目次]]"
  | _ => ""

/-- The block-processing loop of `NotionDownloader.download_page`
(notion_downloader.py:259-267): for every top-level block, append its
rendering; when it is flagged `has_children`, fetch its children via
the collaborator `fetch` and append each child's own rendering.
Children are rendered with `block_to_markdown` alone — the loop never
recurses into them. -/
def render_blocks (fetch : String → List Block) : List Block → List String
  | [] => []
  | block :: rest =>
    (block_to_markdown block ::
      (if block.has_children then (fetch block.id).map block_to_markdown else []))
      ++ render_blocks fetch rest

/-- The `date` property payload: `content.get("start", "")` and
`content.get("end", "")`.  An absent (or JSON-null) date bound is
embedded as `""`; the code only ever tests these strings for
truthiness and equality, on which `None` and `""` behave alike. -/
structure DateValue where
  start : String
  end_ : String

/-- One database property value: the discriminating `type` tag plus
one field per `.get` access performed by the property branch of
`download_database_as_markdown_table` (notion_downloader.py:420-464).
`select`/`created_by`/`last_edited_by` carry the contained display
name (`none` when the payload dict is falsy).  `number` carries the
numeric value (JSON numbers are embedded as integers; no claim under
verification involves a number cell).  `other` is the best-effort
`str(...)` of the payload of an unrecognized tag, `""` when absent. -/
structure PropertyValue where
  type : String
  title : List RichTextSpan
  rich_text : List RichTextSpan
  select : Option String
  multi_select : List String
  date : Option DateValue
  number : Option Int
  checkbox : Bool
  url : String
  email : String
  phone_number : String
  created_time : String
  created_by : Option String
  last_edited_time : String
  last_edited_by : Option String
  other : String

/-- The empty dict `{}` returned by `page_properties.get(prop_name, {})`
for a missing property: its type tag is `""` and every payload is
absent. -/
def emptyProp : PropertyValue :=
  ⟨"", [], [], none, [], none, none, false, "", "", "", "", none, "", none, ""⟩

/-- Python `sep.join(parts)`. -/
def joinSep (sep : String) : List String → String
  | [] => ""
  | [x] => x
  | x :: xs => x ++ sep ++ joinSep sep xs

/-- The per-property dispatch of
`NotionDownloader.download_database_as_markdown_table`
(notion_downloader.py:417-464), producing the cell display string
before table escaping. -/
def render_property_value (prop_value : PropertyValue) : String :=
  let prop_type := prop_value.type
  if prop_type = "title" then
    if prop_value.title ≠ [] then extract_text prop_value.title else "無題"
  else if prop_type = "rich_text" then
    if prop_value.rich_text ≠ [] then extract_text prop_value.rich_text else ""
  else if prop_type = "select" then
    match prop_value.select with
    | some name => name
    | none => ""
  else if prop_type = "multi_select" then
    if prop_value.multi_select ≠ [] then joinSep ", " prop_value.multi_select else ""
  else if prop_type = "date" then
    match prop_value.date with
    | some content =>
      if content.end_ ≠ "" ∧ content.end_ ≠ content.start then
        content.start ++ " - " ++ content.end_
      else
        content.start
    | none => ""
  else if prop_type = "number" then
    match prop_value.number with
    | some n => toString n
    | none => ""
  else if prop_type = "checkbox" then
    if prop_value.checkbox then "✅" else "❌"
  else if prop_type = "url" then
    prop_value.url
  else if prop_type = "email" then
    prop_value.email
  else if prop_type = "phone_number" then
    prop_value.phone_number
  else if prop_type = "created_time" then
    prop_value.created_time
  else if prop_type = "created_by" then
    match prop_value.created_by with
    | some name => name
    | none => ""
  else if prop_type = "last_edited_time" then
    prop_value.last_edited_time
  else if prop_type = "last_edited_by" then
    match prop_value.last_edited_by with
    | some name => name
    | none => ""
  else
    prop_value.other

/-- A `date` property value carrying `start`/`end` bounds, as used by
the table exporter. -/
def mkDateProp (st en : String) : PropertyValue :=
  ⟨"date", [], [], none, [], some ⟨st, en⟩, none, false, "", "", "", "", none, "", none, ""⟩

/-- Python `str.replace(pattern, replacement)` for a single-character
pattern: every occurrence of `c` becomes `r`. -/
def replaceChar (c : Char) (r : List Char) : List Char → List Char
  | [] => []
  | x :: xs => (if x = c then r else [x]) ++ replaceChar c r xs

/-- The escaping `text.replace("|", "\\|").replace("\n", "<br>")`
(notion_downloader.py:467): the table-cell escaping step. -/
def escape_cell (text : String) : String :=
  ⟨replaceChar '\n' "<br>".data (replaceChar '|' ['\\', '|'] text.data)⟩

/-- The single-pass view of one escaped character: `'|'` becomes
`"\\|"`, `'\n'` becomes `"<br>"`, anything else stays. -/
def escChar (c : Char) : List Char :=
  if c = '|' then ['\\', '|'] else if c = '\n' then "<br>".data else [c]

/-- The single-pass view of the whole escaping step. -/
def escList : List Char → List Char
  | [] => []
  | x :: xs => escChar x ++ escList xs

/-- Decides that a character sequence contains no unescaped literal
pipe: every `'|'` is consumed together with the `'\\'` directly
before it. -/
def noUnescapedPipe : List Char → Bool
  | '\\' :: '|' :: rest => noUnescapedPipe rest
  | '|' :: _ => false
  | _ :: rest => noUnescapedPipe rest
  | [] => true

/-- One database record as consumed by the table exporter: identifier,
raw timestamps, and the name-keyed property mapping (dict insertion
order is embedded as list order). -/
structure PageRow where
  id : String
  created_time : String
  last_edited_time : String
  properties : List (String × PropertyValue)

/-- The access `page_properties.get(prop_name, {})`. -/
def lookupProp (props : List (String × PropertyValue)) (name : String) : PropertyValue :=
  match props.find? (fun kv => kv.1 == name) with
  | some kv => kv.2
  | none => emptyProp

/-- The hyphen removal `page_id.replace('-', '')`. -/
def removeHyphens (s : String) : String :=
  ⟨s.data.filter (fun c => c ≠ '-')⟩

/-- One data row of the exported table (notion_downloader.py:410-499):
the escaped property cells in schema order followed by the four fixed
extra columns.  `fmt_time` abstracts the datetime reformatting of
lines 477-489 (a `datetime` library call with a fallback to the raw
string); no claim under verification depends on its value. -/
def render_row (fmt_time : String → String) (property_names : List String)
    (page : PageRow) : String :=
  let row_data := property_names.map
    (fun name => escape_cell (render_property_value (lookupProp page.properties name)))
  let notion_url := "https://notion.so/" ++ removeHyphens page.id
  let row_data := row_data ++
    [page.id, fmt_time page.created_time, fmt_time page.last_edited_time,
     "[リンク](" ++ notion_url ++ ")"]
  "| " ++ joinSep " | " row_data ++ " |\n"

/-- The document built by
`NotionDownloader.download_database_as_markdown_table`
(notion_downloader.py:385-499) from the database title, id, the
formatted current time (`now`), the schema's property names and the
fetched records: the metadata header, then either the "no records"
message or the table header, divider and data rows. -/
def database_table_markdown (fmt_time : String → String)
    (database_title database_id now : String)
    (property_names : List String) (pages : List PageRow) : String :=
  let header :=
    "# " ++ database_title ++ " - テーブル形式\n" ++
    "**作成日**: " ++ now ++ "\n" ++
    "**データベースID**: " ++ database_id ++ "\n" ++
    "**ページ数**: " ++ toString pages.length ++ "\n\n" ++
    "---\n\n"
  let body :=
    if pages.isEmpty then
      "データベースにページがありません。\n"
    else
      let all_columns := property_names ++ ["ページID", "作成日", "最終更新日", "URL"]
      "| " ++ joinSep " | " all_columns ++ " |\n" ++
      "| " ++ joinSep " | " (List.replicate all_columns.length "---") ++ " |\n" ++
      joinParts (pages.map (render_row fmt_time property_names))
  header ++ body

/-- A page object as consumed by `get_page_title`: its identifier and
its name-keyed property mapping. -/
structure PageObj where
  id : String
  properties : List (String × PropertyValue)

/-- The property scan of `NotionDownloader.get_page_title`
(notion_downloader.py:206-213): return the rendered spans of the
first property whose type is `"title"` with a truthy (non-empty)
span list; fall back to `"Untitled-"` plus the first eight characters
of the page id. -/
def get_page_title_loop (pageId : String) : List (String × PropertyValue) → String
  | [] => "Untitled-" ++ pageId.take 8
  | kv :: rest =>
    if kv.2.type = "title" then
      if kv.2.title ≠ [] then extract_text kv.2.title
      else get_page_title_loop pageId rest
    else get_page_title_loop pageId rest

/-- The function `NotionDownloader.get_page_title` (notion_downloader.py:193-213). -/
def get_page_title (page : PageObj) : String :=
  get_page_title_loop page.id page.properties

/-- The characters kept by the filename filter
`c.isalnum() or c in (' ', '-', '_')` (notion_downloader.py:233).
`Char.isAlphanum` embeds Python's `str.isalnum`. -/
def keepChar (c : Char) : Bool :=
  c.isAlphanum || c = ' ' || c = '-' || c = '_'

/-- The whitespace set stripped by Python's `str.rstrip()`. -/
def pyIsSpace (c : Char) : Bool :=
  c = ' ' || c = '\t' || c = '\n' || c = '\r' || c = '\x0b' || c = '\x0c'

/-- The filename sanitization of `download_page` /
`download_database_as_markdown_table` (notion_downloader.py:233-234
and 368-369): keep alphanumerics, space, hyphen and underscore, strip
trailing whitespace, then replace spaces with underscores. -/
def sanitize_title (title : String) : String :=
  let safe_title := String.mk (title.data.filter keepChar)
  let safe_title := String.mk ((safe_title.data.reverse.dropWhile pyIsSpace).reverse)
  String.mk (safe_title.data.map (fun c => if c = ' ' then '_' else c))

/-- A JSON-like configuration value (notion_config.json contents). -/
inductive ConfigValue where
  | str (s : String)
  | num (n : Int)
  | boolean (b : Bool)
  | null
  | arr (items : List ConfigValue)
  | obj (fields : List (String × ConfigValue))

/-- The `re.sub(r'\$\{([^}]+)\}', replace_env_var, value)` scan of
`resolve_environment_variables` (notion_helper.py:34-39) over the
character sequence of a string.  A match is a dollar sign, an opening
brace, one or more non-closing-brace characters, then a closing
brace; matched variable names are looked up in `env`
(`os.getenv`), and an unset variable leaves the match text verbatim.
Scanning resumes after the match; replacement text is not rescanned. -/
def substEnvAux (env : String → Option String) : List Char → List Char
  | [] => []
  | '$' :: '\x7b' :: rest =>
    let varChars := rest.takeWhile (fun c => c ≠ '\x7d')
    let after := rest.dropWhile (fun c => c ≠ '\x7d')
    match h : after with
    | '\x7d' :: tail =>
      if varChars.isEmpty then '$' :: '\x7b' :: substEnvAux env rest
      else
        (match env (String.mk varChars) with
         | some v => v.data
         | none => '$' :: '\x7b' :: (varChars ++ ['\x7d'])) ++ substEnvAux env tail
    | _ => '$' :: '\x7b' :: substEnvAux env rest
  | c :: rest => c :: substEnvAux env rest
termination_by l => l.length
decreasing_by
  all_goals try
    (have h2 : List.dropWhile (fun c => (c ≠ '\x7d' : Bool)) rest = '\x7d' :: tail := h
     have h1 : (List.dropWhile (fun c => (c ≠ '\x7d' : Bool)) rest).length ≤ rest.length :=
       (List.dropWhile_sublist _).length_le
     rw [h2] at h1
     simp at h1 ⊢
     omega)
  all_goals (simp; try omega)

/-- The function `resolve_environment_variables` (notion_helper.py:22-40):
substitute environment variables inside a string value, return any
non-string value unchanged. -/
def resolve_environment_variables (env : String → Option String)
    (value : ConfigValue) : ConfigValue :=
  match value with
  | .str s => .str (String.mk (substEnvAux env s.data))
  | v => v

mutual

/-- The function `resolve_config_values` (notion_helper.py:42-57): recurse through
dicts and lists, resolve environment variables at the leaves. -/
def resolve_config_values (env : String → Option String) : ConfigValue → ConfigValue
  | .obj fields => .obj (resolveObj env fields)
  | .arr items => .arr (resolveList env items)
  | v => resolve_environment_variables env v

/-- The list comprehension of `resolve_config_values` over a list. -/
def resolveList (env : String → Option String) : List ConfigValue → List ConfigValue
  | [] => []
  | x :: xs => resolve_config_values env x :: resolveList env xs

/-- The dict comprehension of `resolve_config_values`: keys are kept,
values are resolved. -/
def resolveObj (env : String → Option String) :
    List (String × ConfigValue) → List (String × ConfigValue)
  | [] => []
  | kv :: xs => (kv.1, resolve_config_values env kv.2) :: resolveObj env xs

end

/-- A block payload with every optional part absent (used by the
concrete witnesses below). -/
def emptyContent : BlockContent :=
  ⟨[], false, "", none, none, none, []⟩

/-- A concrete heading block with no rich text. -/
def blockC2 : Block :=
  ⟨"b1", "heading_1", false, emptyContent⟩

/-- A concrete block with an unsupported type tag. -/
def blockC3 : Block :=
  ⟨"b2", "video", false, emptyContent⟩

@[simp]
theorem data_mk (l : List Char) : (String.mk l).data = l := rfl

theorem joinParts_append (a b : List String) :
    joinParts (a ++ b) = joinParts a ++ joinParts b := by
  induction a with
  | nil => exact (String.empty_append _).symm
  | cons x xs ih =>
    show x ++ joinParts (xs ++ b) = x ++ joinParts xs ++ joinParts b
    rw [ih, String.append_assoc]

/-- C1: the rich-text renderer processes spans in input order and
concatenates their outputs with no separator (it is a homomorphism
for list concatenation), and on a single `text` span the annotation
markers are applied as successive wraps in the fixed order bold,
italic, strikethrough, code — for any combination of the four flags —
with the link wrap applied last. -/
theorem c1_rich_text_renderer :
    ∀ (xs ys : List RichTextSpan) (s : String) (bo it st co : Bool) (l : Option String),
      extract_text (xs ++ ys) = extract_text xs ++ extract_text ys ∧
      extract_text [⟨"text", s, ⟨bo, it, st, co⟩, l⟩] =
        specWrapLink l (specWrapCode co (specWrapStrike st
          (specWrapItalic it (specWrapBold bo s)))) := by
  intro xs ys s bo it st co l
  constructor
  · show joinParts (List.filterMap renderSpan (xs ++ ys)) = _
    rw [List.filterMap_append, joinParts_append]
    rfl
  · cases l with
    | none =>
      show specWrapCode co (specWrapStrike st (specWrapItalic it (specWrapBold bo s))) ++ "" = _
      exact String.append_empty _
    | some url =>
      show specWrapLink (some url) (specWrapCode co (specWrapStrike st
        (specWrapItalic it (specWrapBold bo s)))) ++ "" = _
      exact String.append_empty _

/-- C2: for every block whose type tag is supported, rendering is
total and deterministic (a Lean function) and the output contains the
type's structural marker even for empty inline text; a `heading_1`
block with no rich text renders exactly `"# \n\n"`. -/
theorem c2_supported_blocks_total :
    (∀ b : Block, b.type ∈ supported_types →
       ∃ pre post, block_to_markdown b = pre ++ structuralMarker b.type ++ post) ∧
    (∀ (i : String) (hc : Bool) (c : BlockContent), c.rich_text = [] →
       block_to_markdown ⟨i, "heading_1", hc, c⟩ = "# \n\n") := by
  constructor
  · rintro ⟨i, ty, hc, c⟩ hmem
    simp only [supported_types, List.mem_cons, List.not_mem_nil, or_false] at hmem
    rcases hmem with h|h|h|h|h|h|h|h|h|h|h|h|h <;> subst h
    · refine ⟨extract_text c.rich_text, "", ?_⟩
      rw [show block_to_markdown ⟨i, "paragraph", hc, c⟩ =
        extract_text c.rich_text ++ "\n\n" from rfl]
      apply String.ext
      simp only [String.data_append, List.append_assoc]
      rfl
    · refine ⟨"", extract_text c.rich_text ++ "\n\n", ?_⟩
      rw [show block_to_markdown ⟨i, "heading_1", hc, c⟩ =
        "# " ++ extract_text c.rich_text ++ "\n\n" from rfl]
      apply String.ext
      simp only [String.data_append, List.append_assoc]
      rfl
    · refine ⟨"", extract_text c.rich_text ++ "\n\n", ?_⟩
      rw [show block_to_markdown ⟨i, "heading_2", hc, c⟩ =
        "## " ++ extract_text c.rich_text ++ "\n\n" from rfl]
      apply String.ext
      simp only [String.data_append, List.append_assoc]
      rfl
    · refine ⟨"", extract_text c.rich_text ++ "\n\n", ?_⟩
      rw [show block_to_markdown ⟨i, "heading_3", hc, c⟩ =
        "### " ++ extract_text c.rich_text ++ "\n\n" from rfl]
      apply String.ext
      simp only [String.data_append, List.append_assoc]
      rfl
    · refine ⟨"", extract_text c.rich_text ++ "\n", ?_⟩
      rw [show block_to_markdown ⟨i, "bulleted_list_item", hc, c⟩ =
        "- " ++ extract_text c.rich_text ++ "\n" from rfl]
      apply String.ext
      simp only [String.data_append, List.append_assoc]
      rfl
    · refine ⟨"", extract_text c.rich_text ++ "\n", ?_⟩
      rw [show block_to_markdown ⟨i, "numbered_list_item", hc, c⟩ =
        "1. " ++ extract_text c.rich_text ++ "\n" from rfl]
      apply String.ext
      simp only [String.data_append, List.append_assoc]
      rfl
    · refine ⟨if c.checked then "[x" else "[ ", extract_text c.rich_text ++ "\n", ?_⟩
      rw [show block_to_markdown ⟨i, "to_do", hc, c⟩ =
        (if c.checked then "[x]" else "[ ]") ++ " " ++
          extract_text c.rich_text ++ "\n" from rfl]
      apply String.ext
      simp only [String.data_append, List.append_assoc]
      cases c.checked <;> rfl
    · refine ⟨"", c.language ++ "\n" ++ extract_text c.rich_text ++ "\n```\n\n", ?_⟩
      rw [show block_to_markdown ⟨i, "code", hc, c⟩ =
        "```" ++ c.language ++ "\n" ++ extract_text c.rich_text ++ "\n```\n\n" from rfl]
      apply String.ext
      simp only [String.data_append, List.append_assoc]
      rfl
    · refine ⟨"", extract_text c.rich_text ++ "\n\n", ?_⟩
      rw [show block_to_markdown ⟨i, "quote", hc, c⟩ =
        "> " ++ extract_text c.rich_text ++ "\n\n" from rfl]
      apply String.ext
      simp only [String.data_append, List.append_assoc]
      rfl
    · refine ⟨c.icon_emoji.getD "💡", extract_text c.rich_text ++ "\n\n", ?_⟩
      rw [show block_to_markdown ⟨i, "callout", hc, c⟩ =
        (c.icon_emoji.getD "💡") ++ " " ++ extract_text c.rich_text ++ "\n\n" from rfl]
      apply String.ext
      simp only [String.data_append, List.append_assoc]
      rfl
    · refine ⟨"", "\n\n", ?_⟩
      rw [show block_to_markdown ⟨i, "divider", hc, c⟩ = "---\n\n" from rfl]
      apply String.ext
      simp only [String.data_append, List.append_assoc]
      rfl
    · refine ⟨"", extract_text c.caption ++ "](" ++
        pyStr (pyOr c.external_url c.file_url) ++ ")" ++
        (if extract_text c.caption ≠ "" then " " ++ extract_text c.caption else "") ++
        "\n\n", ?_⟩
      rw [show block_to_markdown ⟨i, "image", hc, c⟩ =
        "![" ++ extract_text c.caption ++ "](" ++
          pyStr (pyOr c.external_url c.file_url) ++ ")" ++
          (if extract_text c.caption ≠ "" then " " ++ extract_text c.caption else "") ++
          "\n\n" from rfl]
      apply String.ext
      simp only [String.data_append, List.append_assoc]
      rfl
    · refine ⟨"", "\n\n", ?_⟩
      rw [show block_to_markdown ⟨i, "table_of_contents", hc, c⟩ = "[[目次]]\n\n" from rfl]
      apply String.ext
      simp only [String.data_append, List.append_assoc]
      rfl
  · intro i hc c h
    rw [show block_to_markdown ⟨i, "heading_1", hc, c⟩ =
      "# " ++ extract_text c.rich_text ++ "\n\n" from rfl, h]
    decide

/-- Witness for C2: the heading block with no rich text. -/
theorem c2_supported_blocks_total_witness :
    (∃ pre post, block_to_markdown blockC2 = pre ++ structuralMarker blockC2.type ++ post) ∧
    block_to_markdown blockC2 = "# \n\n" :=
  ⟨c2_supported_blocks_total.1 blockC2 (by decide),
   c2_supported_blocks_total.2 "b1" false emptyContent rfl⟩

/-- C3: for every block whose type tag is not supported, rendering
never hard-fails and returns the HTML-comment placeholder containing
the original type tag verbatim. -/
theorem c3_unsupported_placeholder :
    ∀ b : Block, b.type ∉ supported_types →
      block_to_markdown b = "<!-- 未対応ブロック: " ++ b.type ++ " -->\n\n" := by
  rintro ⟨i, ty, hc, c⟩ hmem
  simp only [supported_types, List.mem_cons, List.not_mem_nil, or_false, not_or] at hmem
  obtain ⟨h1, h2, h3, h4, h5, h6, h7, h8, h9, h10, h11, h12, h13⟩ := hmem
  simp [block_to_markdown, h1, h2, h3, h4, h5, h6, h7, h8, h9, h10, h11, h12, h13]

/-- Witness for C3: a `video` block renders to the placeholder
containing `"video"`. -/
theorem c3_unsupported_placeholder_witness :
    block_to_markdown blockC3 = "<!-- 未対応ブロック: " ++ blockC3.type ++ " -->\n\n" :=
  c3_unsupported_placeholder blockC3 (by decide)

theorem render_blocks_fetch_congr :
    ∀ (fetch fetch2 : String → List Block) (blocks : List Block),
      (∀ x ∈ blocks, x.has_children = true → fetch x.id = fetch2 x.id) →
      render_blocks fetch blocks = render_blocks fetch2 blocks := by
  intro fetch fetch2 blocks
  induction blocks with
  | nil => intro _; rfl
  | cons x xs ih =>
    intro h
    show (block_to_markdown x ::
        (if x.has_children then (fetch x.id).map block_to_markdown else []))
        ++ render_blocks fetch xs = _
    rw [ih (fun y hy hc => h y (List.mem_cons_of_mem _ hy) hc)]
    show _ = (block_to_markdown x ::
        (if x.has_children then (fetch2 x.id).map block_to_markdown else []))
        ++ render_blocks fetch2 xs
    cases hx : x.has_children with
    | false => rfl
    | true =>
      rw [h x (List.mem_cons_self _ _) hx]

/-- C4: the page-export block loop renders exactly one level of
children.  The output only depends on the fetched children of the
top-level blocks flagged `has_children` (so grandchildren are never
fetched, no matter how the children themselves are flagged), and for
a flagged block the children's own renderings are appended directly
after the parent's fragment, in list order, each produced by
`block_to_markdown` alone. -/
theorem c4_one_level_children :
    ∀ (fetch fetch2 : String → List Block) (blocks : List Block) (b : Block),
      ((∀ x ∈ blocks, x.has_children = true → fetch x.id = fetch2 x.id) →
         render_blocks fetch blocks = render_blocks fetch2 blocks) ∧
      (b.has_children = true →
         render_blocks fetch [b] =
           block_to_markdown b :: (fetch b.id).map block_to_markdown) := by
  intro fetch fetch2 blocks b
  refine ⟨render_blocks_fetch_congr fetch fetch2 blocks, ?_⟩
  intro hb
  show (block_to_markdown b ::
      (if b.has_children then (fetch b.id).map block_to_markdown else []))
      ++ render_blocks fetch [] = _
  rw [hb]
  simp [render_blocks]

/-- A child block that is itself flagged as having children. -/
def childW : Block := ⟨"c1", "paragraph", true, emptyContent⟩

/-- A parent block flagged as having children. -/
def parentW : Block := ⟨"p1", "bulleted_list_item", true, emptyContent⟩

/-- A fetcher returning the child list of the parent block. -/
def fetchW : String → List Block := fun i => if i = "p1" then [childW] else [blockC2]

/-- A second fetcher agreeing with `fetchW` only on the parent id (in
particular it disagrees below the child, where the loop never looks). -/
def fetchW2 : String → List Block := fun i => if i = "p1" then [childW] else []

/-- Witness for C4: two fetchers agreeing on the parent produce the
same output, and the flagged parent is followed by its children's
renderings. -/
theorem c4_one_level_children_witness :
    render_blocks fetchW [parentW] = render_blocks fetchW2 [parentW] ∧
    render_blocks fetchW [parentW] =
      block_to_markdown parentW :: (fetchW parentW.id).map block_to_markdown :=
  ⟨(c4_one_level_children fetchW fetchW2 [parentW] parentW).1
     (by intro x hx hc; rw [List.mem_singleton.mp hx]; rfl),
   (c4_one_level_children fetchW fetchW2 [parentW] parentW).2 rfl⟩

/-- C5: a date property cell renders as the start date alone when no
end date exists or the end equals the start, and as
`start ++ " - " ++ end` when an end date exists and differs. -/
theorem c5_date_property_cell :
    ∀ st en : String,
      ((en = "" ∨ en = st) → render_property_value (mkDateProp st en) = st) ∧
      (en ≠ "" → en ≠ st → render_property_value (mkDateProp st en) = st ++ " - " ++ en) := by
  intro st en
  have hred : render_property_value (mkDateProp st en) =
      if en ≠ "" ∧ en ≠ st then st ++ " - " ++ en else st := rfl
  constructor
  · intro h
    rw [hred, if_neg]
    rintro ⟨hne, hns⟩
    rcases h with h | h
    · exact hne h
    · exact hns h
  · intro h1 h2
    rw [hred, if_pos ⟨h1, h2⟩]

/-- Witness for C5: the two concrete examples of the spec. -/
theorem c5_date_property_cell_witness :
    render_property_value (mkDateProp "2024-01-01" "2024-01-05") = "2024-01-01 - 2024-01-05" ∧
    render_property_value (mkDateProp "2024-01-01" "2024-01-01") = "2024-01-01" := by
  constructor
  · rw [(c5_date_property_cell "2024-01-01" "2024-01-05").2 (by decide) (by decide)]
    decide
  · exact (c5_date_property_cell "2024-01-01" "2024-01-01").1 (Or.inr rfl)

theorem replaceChar_append (c : Char) (r : List Char) (l₁ l₂ : List Char) :
    replaceChar c r (l₁ ++ l₂) = replaceChar c r l₁ ++ replaceChar c r l₂ := by
  induction l₁ with
  | nil => rfl
  | cons x xs ih => simp [replaceChar, ih, List.append_assoc]

theorem replace_fuse (l : List Char) :
    replaceChar '\n' "<br>".data (replaceChar '|' ['\\', '|'] l) = escList l := by
  induction l with
  | nil => rfl
  | cons x xs ih =>
    show replaceChar '\n' "<br>".data
        ((if x = '|' then ['\\', '|'] else [x]) ++ replaceChar '|' ['\\', '|'] xs) = _
    rw [replaceChar_append, ih]
    by_cases hx : x = '|'
    · subst hx; rfl
    · rw [if_neg hx]
      show (if x = '\n' then "<br>".data else [x]) ++ [] ++ escList xs = escChar x ++ escList xs
      simp [escChar, hx]

theorem escList_head_ne_pipe (xs : List Char) : ∀ rest, escList xs ≠ '|' :: rest := by
  intro rest h
  cases xs with
  | nil => simp [escList] at h
  | cons y ys =>
    by_cases hy : y = '|'
    · subst hy; simp [escList, escChar] at h
    · by_cases hn : y = '\n'
      · subst hn; simp [escList, escChar] at h
      · rw [show escList (y :: ys) = [y] ++ escList ys from by simp [escList, escChar, hy, hn]] at h
        simp at h
        exact hy h.1

theorem nup_cons_esc (l : List Char) :
    noUnescapedPipe ('\\' :: '|' :: l) = noUnescapedPipe l := rfl

theorem nup_cons_other (c : Char) (l : List Char) (h1 : c ≠ '\\') (h2 : c ≠ '|') :
    noUnescapedPipe (c :: l) = noUnescapedPipe l := by
  rw [noUnescapedPipe.eq_def]
  split <;> simp_all

theorem nup_cons_backslash (l : List Char) (h : ∀ rest, l ≠ '|' :: rest) :
    noUnescapedPipe ('\\' :: l) = noUnescapedPipe l := by
  rw [noUnescapedPipe.eq_def]
  split <;> simp_all

theorem nup_escList (l : List Char) : noUnescapedPipe (escList l) = true := by
  induction l with
  | nil => rfl
  | cons x xs ih =>
    by_cases hx : x = '|'
    · subst hx
      show noUnescapedPipe ('\\' :: '|' :: escList xs) = true
      rw [nup_cons_esc]; exact ih
    · by_cases hn : x = '\n'
      · subst hn
        exact ih
      · by_cases hb : x = '\\'
        · subst hb
          show noUnescapedPipe ('\\' :: escList xs) = true
          rw [nup_cons_backslash _ (escList_head_ne_pipe xs)]; exact ih
        · rw [show escList (x :: xs) = [x] ++ escList xs from by simp [escList, escChar, hx, hn]]
          show noUnescapedPipe (x :: escList xs) = true
          rw [nup_cons_other x _ hb hx]; exact ih

theorem newline_not_mem_escList (l : List Char) : '\n' ∉ escList l := by
  induction l with
  | nil => simp [escList]
  | cons x xs ih =>
    show '\n' ∉ escChar x ++ escList xs
    rw [List.mem_append]
    rintro (h | h)
    · by_cases hx : x = '|'
      · subst hx; exact absurd h (by decide)
      · by_cases hn : x = '\n'
        · subst hn; exact absurd h (by decide)
        · rw [show escChar x = [x] from by simp [escChar, hx, hn]] at h
          simp at h
          exact hn h.symm
    · exact ih h

theorem count_pipe_escList (l : List Char) : (escList l).count '|' = l.count '|' := by
  induction l with
  | nil => rfl
  | cons x xs ih =>
    show (escChar x ++ escList xs).count '|' = (x :: xs).count '|'
    rw [List.count_append, ih]
    by_cases hx : x = '|'
    · subst hx
      simp [escChar, List.count_cons, Nat.add_comm]
    · by_cases hn : x = '\n'
      · subst hn
        simp [escChar, List.count_cons]
      · rw [show escChar x = [x] from by simp [escChar, hx, hn]]
        simp [List.count_cons, hx]

/-- C6: after table-cell escaping, the rendered cell contains no
unescaped literal pipe (every `'|'` of the output is consumed with
the backslash directly before it), no literal newline at all, and
every pipe of the source text is still present (in escaped form):
the pipe count is preserved. -/
theorem c6_table_cell_escaping :
    ∀ text : String,
      noUnescapedPipe (escape_cell text).data = true ∧
      '\n' ∉ (escape_cell text).data ∧
      (escape_cell text).data.count '|' = text.data.count '|' := by
  intro text
  have h : (escape_cell text).data = escList text.data := replace_fuse text.data
  rw [h]
  exact ⟨nup_escList _, newline_not_mem_escList _, count_pipe_escList _⟩

theorem pyspace_not_alnum (c : Char) (h : pyIsSpace c = true) : c.isAlphanum = false := by
  simp only [pyIsSpace, Bool.or_eq_true, decide_eq_true_eq] at h
  rcases h with ((((h | h) | h) | h) | h) | h <;> subst h <;> decide

theorem dropWhile_eq_self_of_all {p : Char → Bool} {l : List Char}
    (h : ∀ c ∈ l, p c = false) : l.dropWhile p = l := by
  cases l with
  | nil => rfl
  | cons x xs =>
    rw [List.dropWhile_cons, h x (List.mem_cons_self _ _)]
    simp

theorem map_eq_self_of {f : Char → Char} {l : List Char}
    (h : ∀ c ∈ l, f c = c) : l.map f = l := by
  induction l with
  | nil => rfl
  | cons x xs ih =>
    rw [List.map_cons, h x (List.mem_cons_self _ _),
      ih (fun c hc => h c (List.mem_cons_of_mem _ hc))]

theorem sanitize_mem (t : String) (c : Char) (hc : c ∈ (sanitize_title t).data) :
    keepChar c = true ∧ pyIsSpace c = false ∧ c ≠ ' ' := by
  have hc' : c ∈ (((t.data.filter keepChar).reverse.dropWhile pyIsSpace).reverse.map
      (fun c => if c = ' ' then '_' else c)) := hc
  obtain ⟨d, hd, hdc⟩ := List.mem_map.mp hc'
  have hd2 : d ∈ t.data.filter keepChar := by
    have h1 := List.mem_reverse.mp hd
    have h2 := (List.dropWhile_sublist _).subset h1
    exact List.mem_reverse.mp h2
  have hkeep : keepChar d = true := (List.mem_filter.mp hd2).2
  by_cases hsp : d = ' '
  · subst hsp
    rw [if_pos rfl] at hdc
    subst hdc
    decide
  · rw [if_neg hsp] at hdc
    subst hdc
    refine ⟨hkeep, ?_, hsp⟩
    cases hps : pyIsSpace d with
    | false => rfl
    | true =>
      exfalso
      have halnum := pyspace_not_alnum d hps
      simp only [keepChar, halnum, hsp, Bool.or_eq_true, decide_eq_true_eq,
        Bool.false_eq_true, false_or] at hkeep
      rcases hkeep with h | h <;> subst h <;> exact absurd hps (by decide)

/-- C7: filename sanitization is idempotent — sanitizing an
already-sanitized title yields it unchanged. -/
theorem c7_sanitize_idempotent :
    ∀ title : String, sanitize_title (sanitize_title title) = sanitize_title title := by
  intro title
  have hall := fun c hc => sanitize_mem title c hc
  show String.mk ((((sanitize_title title).data.filter keepChar).reverse.dropWhile
      pyIsSpace).reverse.map (fun c => if c = ' ' then '_' else c)) = sanitize_title title
  rw [List.filter_eq_self.mpr (fun c hc => (hall c hc).1),
    dropWhile_eq_self_of_all (fun c hc => (hall c (List.mem_reverse.mp hc)).2.1),
    List.reverse_reverse,
    map_eq_self_of (fun c hc => if_neg (hall c hc).2.2)]

/-- C8: a database with zero records exports a document whose body —
after the metadata header — is exactly the single-line "no records"
message; no table header row and no divider row are emitted. -/
theorem c8_empty_database_table :
    ∀ (fmt_time : String → String) (database_title database_id now : String)
      (property_names : List String),
      database_table_markdown fmt_time database_title database_id now property_names [] =
        "# " ++ database_title ++ " - テーブル形式\n**作成日**: " ++ now ++
          "\n**データベースID**: " ++ database_id ++
          "\n**ページ数**: 0\n\n---\n\nデータベースにページがありません。\n" := by
  intro fmt_time dt di now pn
  rw [show database_table_markdown fmt_time dt di now pn [] =
    "# " ++ dt ++ " - テーブル形式\n" ++ "**作成日**: " ++ now ++ "\n" ++
      "**データベースID**: " ++ di ++ "\n" ++
      "**ページ数**: " ++ toString (List.length ([] : List PageRow)) ++ "\n\n" ++
      "---\n\n" ++ "データベースにページがありません。\n" from rfl]
  apply String.ext
  simp only [String.data_append, List.append_assoc]
  rfl

theorem get_page_title_loop_spec :
    ∀ (pid : String) (props : List (String × PropertyValue)),
      (∀ kv, props.find? (fun kv => kv.2.type == "title" && !kv.2.title.isEmpty) = some kv →
         get_page_title_loop pid props = extract_text kv.2.title) ∧
      (props.find? (fun kv => kv.2.type == "title" && !kv.2.title.isEmpty) = none →
         get_page_title_loop pid props = "Untitled-" ++ pid.take 8) := by
  intro pid props
  induction props with
  | nil =>
    constructor
    · intro kv h
      simp at h
    · intro _
      rfl
  | cons hd tl ih =>
    by_cases hp : (hd.2.type == "title" && !hd.2.title.isEmpty) = true
    · have hfind : List.find? (fun kv => kv.2.type == "title" && !kv.2.title.isEmpty)
          (hd :: tl) = some hd := List.find?_cons_of_pos _ hp
      have hty : hd.2.type = "title" := by
        simp only [Bool.and_eq_true, beq_iff_eq] at hp
        exact hp.1
      have hne : hd.2.title ≠ [] := by
        simp only [Bool.and_eq_true, Bool.not_eq_true'] at hp
        intro he
        rw [he] at hp
        simp at hp
      constructor
      · intro kv h
        rw [hfind] at h
        injection h with h
        subst h
        show (if hd.2.type = "title" then
            (if hd.2.title ≠ [] then extract_text hd.2.title
             else get_page_title_loop pid tl)
          else get_page_title_loop pid tl) = _
        rw [if_pos hty, if_pos hne]
      · intro h
        rw [hfind] at h
        exact absurd h (by simp)
    · have hfind : List.find? (fun kv => kv.2.type == "title" && !kv.2.title.isEmpty)
          (hd :: tl) = List.find? (fun kv => kv.2.type == "title" && !kv.2.title.isEmpty) tl :=
        List.find?_cons_of_neg _ hp
      have hloop : get_page_title_loop pid (hd :: tl) = get_page_title_loop pid tl := by
        show (if hd.2.type = "title" then
            (if hd.2.title ≠ [] then extract_text hd.2.title
             else get_page_title_loop pid tl)
          else get_page_title_loop pid tl) = _
        by_cases hty : hd.2.type = "title"
        · rw [if_pos hty, if_neg]
          intro hne
          exact hp (by simp [hty, hne])
        · rw [if_neg hty]
      constructor
      · intro kv h
        rw [hfind] at h
        rw [hloop]
        exact ih.1 kv h
      · intro h
        rw [hfind] at h
        rw [hloop]
        exact ih.2 h

/-- C9: `get_page_title` returns the inline-rendered text of the
first property whose type tag is `"title"` and whose span list is
non-empty; when no such property exists (including a present title
property with an empty span list) it returns `"Untitled-"` followed
by the first eight characters of the page id. -/
theorem c9_page_title :
    ∀ page : PageObj,
      (∀ kv, page.properties.find?
          (fun kv => kv.2.type == "title" && !kv.2.title.isEmpty) = some kv →
         get_page_title page = extract_text kv.2.title) ∧
      (page.properties.find?
          (fun kv => kv.2.type == "title" && !kv.2.title.isEmpty) = none →
         get_page_title page = "Untitled-" ++ page.id.take 8) :=
  fun page => get_page_title_loop_spec page.id page.properties

/-- A page without a usable title property. -/
def pageC9 : PageObj := ⟨"12345678-abcd", []⟩

/-- An unannotated rich-text span. -/
def titleSpanW : RichTextSpan := ⟨"text", "My Page", ⟨false, false, false, false⟩, none⟩

/-- A title property with one span. -/
def titlePropW : PropertyValue :=
  ⟨"title", [titleSpanW], [], none, [], none, none, false, "", "", "", "", none, "", none, ""⟩

/-- A page with a title property. -/
def pageC9b : PageObj := ⟨"deadbeef-99", [("Name", titlePropW)]⟩

/-- Witness for C9: the fallback name on a page with no title
property, and the rendered title on a page with one. -/
theorem c9_page_title_witness :
    get_page_title pageC9 = "Untitled-" ++ pageC9.id.take 8 ∧
    get_page_title pageC9b = extract_text titlePropW.title :=
  ⟨(c9_page_title pageC9).2 rfl,
   (c9_page_title pageC9b).1 ("Name", titlePropW) rfl⟩

theorem takeWhile_append_all (p : Char → Bool) (l₁ l₂ : List Char)
    (h : ∀ c ∈ l₁, p c = true) :
    List.takeWhile p (l₁ ++ l₂) = l₁ ++ List.takeWhile p l₂ := by
  induction l₁ with
  | nil => simp
  | cons x xs ih =>
    rw [List.cons_append, List.takeWhile_cons, h x (List.mem_cons_self _ _)]
    simp only [if_true]
    rw [ih (fun c hc => h c (List.mem_cons_of_mem _ hc)), List.cons_append]

theorem dropWhile_append_all (p : Char → Bool) (l₁ l₂ : List Char)
    (h : ∀ c ∈ l₁, p c = true) :
    List.dropWhile p (l₁ ++ l₂) = List.dropWhile p l₂ := by
  induction l₁ with
  | nil => simp
  | cons x xs ih =>
    rw [List.cons_append, List.dropWhile_cons, h x (List.mem_cons_self _ _)]
    simp only [if_true]
    exact ih (fun c hc => h c (List.mem_cons_of_mem _ hc))

theorem substEnv_scan (env : String → Option String) (c : Char) (l : List Char)
    (h : c ≠ '$') : substEnvAux env (c :: l) = c :: substEnvAux env l := by
  rw [substEnvAux.eq_def]
  split <;> simp_all

theorem substEnv_take (var rest : List Char) (hvar : ∀ c ∈ var, c ≠ '\x7d') :
    List.takeWhile (fun c => (c ≠ '\x7d' : Bool)) (var ++ '\x7d' :: rest) = var := by
  rw [takeWhile_append_all _ _ _ (fun c hc => by simp [hvar c hc])]
  simp [List.takeWhile_cons]

theorem substEnv_drop (var rest : List Char) (hvar : ∀ c ∈ var, c ≠ '\x7d') :
    List.dropWhile (fun c => (c ≠ '\x7d' : Bool)) (var ++ '\x7d' :: rest) = '\x7d' :: rest := by
  rw [dropWhile_append_all _ _ _ (fun c hc => by simp [hvar c hc])]
  simp [List.dropWhile_cons]

theorem substEnv_match_set (env : String → Option String) (var rest : List Char) (v : String)
    (hne : var ≠ []) (hvar : ∀ c ∈ var, c ≠ '\x7d')
    (henv : env (String.mk var) = some v) :
    substEnvAux env ('$' :: '\x7b' :: (var ++ '\x7d' :: rest)) =
      v.data ++ substEnvAux env rest := by
  rw [substEnvAux.eq_2]
  split
  · rename_i tail htail
    rw [substEnv_drop var rest hvar] at htail
    injection htail with _ htail
    subst htail
    rw [substEnv_take var rest hvar, if_neg (by simp [hne]), henv]
  · rename_i hne2
    exact absurd (substEnv_drop var rest hvar) (by intro h; exact hne2 rest h)

theorem substEnv_match_unset (env : String → Option String) (var rest : List Char)
    (hne : var ≠ []) (hvar : ∀ c ∈ var, c ≠ '\x7d')
    (henv : env (String.mk var) = none) :
    substEnvAux env ('$' :: '\x7b' :: (var ++ '\x7d' :: rest)) =
      '$' :: '\x7b' :: (var ++ '\x7d' :: substEnvAux env rest) := by
  rw [substEnvAux.eq_2]
  split
  · rename_i tail htail
    rw [substEnv_drop var rest hvar] at htail
    injection htail with _ htail
    subst htail
    rw [substEnv_take var rest hvar, if_neg (by simp [hne]), henv]
    simp [List.append_assoc]
  · rename_i hne2
    exact absurd (substEnv_drop var rest hvar) (by intro h; exact hne2 rest h)

theorem resolveList_map (env : String → Option String) (items : List ConfigValue) :
    resolveList env items = items.map (resolve_config_values env) := by
  induction items with
  | nil => rfl
  | cons x xs ih =>
    show resolve_config_values env x :: resolveList env xs = _
    rw [ih, List.map_cons]

theorem resolveObj_map (env : String → Option String)
    (fields : List (String × ConfigValue)) :
    resolveObj env fields = fields.map (fun kv => (kv.1, resolve_config_values env kv.2)) := by
  induction fields with
  | nil => rfl
  | cons x xs ih =>
    show (x.1, resolve_config_values env x.2) :: resolveObj env xs = _
    rw [ih, List.map_cons]

/-- C10: `resolve_config_values` preserves the tree structure —
recursing through dicts (keys kept, in order) and lists (in order) —
and rewrites only string leaves; non-string leaves are returned
unchanged.  Inside a string, scanning preserves every character that
does not open a placeholder, a well-formed placeholder over a set
variable is replaced by the variable's value, and a placeholder over
an unset variable is left as literal text, scanning continuing after
it. -/
theorem c10_config_env_resolution :
    ∀ env : String → Option String,
      (∀ fields, resolve_config_values env (.obj fields) =
         .obj (fields.map (fun kv => (kv.1, resolve_config_values env kv.2)))) ∧
      (∀ items, resolve_config_values env (.arr items) =
         .arr (items.map (resolve_config_values env))) ∧
      (∀ n : Int, resolve_config_values env (.num n) = .num n) ∧
      (∀ b : Bool, resolve_config_values env (.boolean b) = .boolean b) ∧
      (resolve_config_values env .null = .null) ∧
      (∀ s : String, resolve_config_values env (.str s) =
         .str (String.mk (substEnvAux env s.data))) ∧
      (∀ (c : Char) (l : List Char), c ≠ '$' →
         substEnvAux env (c :: l) = c :: substEnvAux env l) ∧
      (∀ (var rest : List Char) (v : String), var ≠ [] → (∀ c ∈ var, c ≠ '\x7d') →
         env (String.mk var) = some v →
         substEnvAux env ('$' :: '\x7b' :: (var ++ '\x7d' :: rest)) =
           v.data ++ substEnvAux env rest) ∧
      (∀ (var rest : List Char), var ≠ [] → (∀ c ∈ var, c ≠ '\x7d') →
         env (String.mk var) = none →
         substEnvAux env ('$' :: '\x7b' :: (var ++ '\x7d' :: rest)) =
           '$' :: '\x7b' :: (var ++ '\x7d' :: substEnvAux env rest)) := by
  intro env
  refine ⟨?_, ?_, fun _ => rfl, fun _ => rfl, rfl, fun _ => rfl,
    substEnv_scan env, substEnv_match_set env, substEnv_match_unset env⟩
  · intro fields
    show ConfigValue.obj (resolveObj env fields) = _
    rw [resolveObj_map]
  · intro items
    show ConfigValue.arr (resolveList env items) = _
    rw [resolveList_map]

/-- A concrete environment binding only the variable `NT`. -/
def envW : String → Option String :=
  fun s => if s = "NT" then some "tok" else none

/-- Witness for C10: a set placeholder is substituted, an unset one
is kept literally, and a non-string leaf is unchanged. -/
theorem c10_config_env_resolution_witness :
    substEnvAux envW ('$' :: '\x7b' :: (['N', 'T'] ++ '\x7d' :: [])) =
      "tok".data ++ substEnvAux envW [] ∧
    substEnvAux envW ('$' :: '\x7b' :: (['N', 'O'] ++ '\x7d' :: [])) =
      '$' :: '\x7b' :: (['N', 'O'] ++ '\x7d' :: substEnvAux envW []) ∧
    resolve_config_values envW (.num 3) = .num 3 :=
  ⟨(c10_config_env_resolution envW).2.2.2.2.2.2.2.1 ['N', 'T'] [] "tok"
     (by decide) (by decide) (by decide),
   (c10_config_env_resolution envW).2.2.2.2.2.2.2.2 ['N', 'O'] []
     (by decide) (by decide) (by decide),
   (c10_config_env_resolution envW).2.2.1 3⟩

end NotionDL
